import Mathlib

/-!
Verification development for the nfl-data-pipeline importer.

The Rust sources are embedded shallowly:

* `transformer.rs` : pure normalization helpers (`normalize_team_abbr`,
  `height_to_inches`, `clean_player_name`).
* `downloader.rs`  : the retry loop `download_with_retry` and the NGS
  season guards, modelled over an oracle `Nat → ReqOutcome` giving the
  outcome of each HTTP attempt; the returned `FetchResult` records the
  outcome, the backoff delays slept (in seconds) and the number of HTTP
  requests issued.
* `sync.rs`        : the upsert/import pipeline, modelled over an explicit
  relational store.  SQL `INSERT .. ON CONFLICT (key) DO UPDATE` is
  modelled by a generic keyed upsert on row lists; `uuid_generate_v4()`
  is modelled by an allocation counter (`nextId`); the `created_at` /
  `updated_at` / `started_at` / `completed_at` timestamp columns, which
  the spec explicitly excludes from the idempotence statement ("refresh
  the update timestamp"), are not part of the modelled rows.

Strings are Lean `String`s; Rust `to_uppercase` / `trim` are modelled at
the ASCII level (`Char.toUpper`, `Char.isWhitespace`), which is faithful
on every team code and name pattern appearing in the claims.  `i32`
arithmetic is modelled as `Int` with an explicit two's-complement wrap
(`int32wrap`) where overflow matters.
-/

/-! ## transformer.rs -/

/-- The `TEAM_MAPPING` static of `transformer.rs`: historical team
abbreviations mapped to current ones, in source order.  The Rust
`HashMap` lookup coincides with association-list lookup because the
eight keys are distinct. -/
def TEAM_MAPPING : List (String × String) :=
  [(("STL"), ("LA")), (("SD"), ("LAC")), (("OAK"), ("LV")),
   (("SL"), ("LA")), (("BLT"), ("BAL")), (("CLV"), ("CLE")),
   (("HST"), ("HOU")), (("ARZ"), ("ARI"))]

/-- Model of Rust `str::to_uppercase` (ASCII level). -/
def toUpperStr (s : String) : String :=
  String.mk (s.data.map Char.toUpper)

/-- `transformer.rs::normalize_team_abbr`: look the abbreviation up in
`TEAM_MAPPING` (case-sensitively); unmapped codes pass through
upper-cased. -/
def normalize_team_abbr (abbr : String) : String :=
  match TEAM_MAPPING.lookup abbr with
  | some s => s
  | none => toUpperStr abbr

/-- Model of Rust `str::split('-')` on a character list: splits at every
dash, keeping empty segments (so `"a-"` splits into `["a", ""]` and
`""` splits into `[""]`), exactly as `split('-').collect::<Vec<_>>()`. -/
def splitDash : List Char → List Char → List (List Char)
  | [], acc => [acc.reverse]
  | c :: rest, acc =>
    if c = '-' then acc.reverse :: splitDash rest []
    else splitDash rest (c :: acc)

/-- Model of Rust `str::parse::<i32>()`: an optional sign followed by one
or more ASCII digits, rejecting values outside the `i32` range. -/
def parseI32L (cs : List Char) : Option Int :=
  match cs with
  | [] => none
  | c :: rest =>
    let (neg, digits) :=
      if c = '-' then (true, rest)
      else if c = '+' then (false, rest)
      else (false, cs)
    if digits.isEmpty then none
    else if digits.all Char.isDigit then
      let n : Nat := digits.foldl (fun acc d => acc * 10 + (d.toNat - 48)) 0
      let v : Int := if neg then -(n : Int) else (n : Int)
      if -(2 ^ 31) ≤ v ∧ v ≤ 2 ^ 31 - 1 then some v else none
    else none

/-- Two's-complement reduction of an integer into the `i32` range,
modelling wrap-around of Rust release-mode `i32` arithmetic.  (In a
debug build the overflowing `feet * 12 + inches` below would panic
instead; either way the mathematical value is not returned.) -/
def int32wrap (x : Int) : Int :=
  (x + 2 ^ 31) % 2 ^ 32 - 2 ^ 31

/-- `transformer.rs::height_to_inches`: split on `'-'`; on exactly two
parts, parse both as `i32` and return `feet * 12 + inches` (computed in
`i32`); otherwise `None`. -/
def height_to_inches (s : String) : Option Int :=
  match splitDash s.data [] with
  | [f, i] =>
    match parseI32L f, parseI32L i with
    | some feet, some inches => some (int32wrap (feet * 12 + inches))
    | _, _ => none
  | _ => none

/-- One pass of Rust `str::replace(pat, repl)`: replace every
non-overlapping occurrence of `pat`, scanning left to right.  The fuel
argument (instantiated with the string length) only serves structural
termination; it is never exhausted for a non-empty pattern. -/
def replaceGo (pat repl : List Char) : Nat → List Char → List Char
  | _, [] => []
  | 0, s => s
  | fuel + 1, c :: rest =>
    if pat.isPrefixOf (c :: rest) then
      repl ++ replaceGo pat repl fuel (List.drop pat.length (c :: rest))
    else
      c :: replaceGo pat repl fuel rest

/-- Rust `str::replace` on character lists. -/
def replaceAll (s pat repl : List Char) : List Char :=
  replaceGo pat repl s.length s

/-- Model of Rust `str::trim` (ASCII whitespace level). -/
def trimChars (s : List Char) : List Char :=
  ((s.dropWhile Char.isWhitespace).reverse.dropWhile Char.isWhitespace).reverse

/-- `transformer.rs::clean_player_name`: the source chains
`.replace(" Jr.", "").replace(" Sr.", "").replace(" II", "")
.replace(" III", "").replace(" IV", "").trim()` in exactly this order. -/
def clean_player_name (name : String) : String :=
  String.mk (trimChars
    (replaceAll
      (replaceAll
        (replaceAll
          (replaceAll
            (replaceAll name.data ((" Jr.").data) [])
            ((" Sr.").data) [])
          ((" II").data) [])
        ((" III").data) [])
      ((" IV").data) []))

/-! ## downloader.rs -/

/-- Outcome of one HTTP attempt: either a response with a status code and
body, or a transport failure (`reqwest` error). -/
inductive ReqOutcome where
  | response (status : Nat) (body : String)
  | failed (msg : String)
deriving DecidableEq, Repr

/-- `reqwest::StatusCode::is_success`: 2xx. -/
def isSuccess (status : Nat) : Bool :=
  200 ≤ status && status < 300

/-- The error values `download_with_retry` and the NGS guards construct
(`anyhow!` strings in the source, closed constructors here). -/
inductive FetchError where
  | notFound (url : String)
  | httpError (status : Nat)
  | requestError (msg : String)
  | downloadFailed (retries : Nat)
  | dataUnavailable
deriving DecidableEq, Repr

/-- The transient error recorded in `last_error` for a failed attempt. -/
def errOf : ReqOutcome → FetchError
  | .response status _ => .httpError status
  | .failed msg => .requestError msg

/-- Decidable equality for `Except`, used to compare download results. -/
instance {ε α : Type} [DecidableEq ε] [DecidableEq α] :
    DecidableEq (Except ε α) := fun a b =>
  match a, b with
  | .ok x, .ok y =>
    if h : x = y then isTrue (by rw [h]) else isFalse (by simp [h])
  | .error x, .error y =>
    if h : x = y then isTrue (by rw [h]) else isFalse (by simp [h])
  | .ok _, .error _ => isFalse (by simp)
  | .error _, .ok _ => isFalse (by simp)

/-- Result of a download: the returned value, the backoff delays slept
(seconds, in order), and the number of HTTP requests issued. -/
structure FetchResult where
  result : Except FetchError String
  delays : List Nat
  requests : Nat
deriving DecidableEq, Repr

/-- The body of the `for attempt in 1..=max_retries` loop of
`downloader.rs::download_with_retry`.  `fuel` counts the remaining loop
iterations; `attempt` is the current attempt number; `le`, `de`, `rq`
accumulate `last_error`, the backoff delays and the request count. -/
def downloadGo (url : String) (resp : Nat → ReqOutcome) (maxRetries : Nat) :
    Nat → Nat → Option FetchError → List Nat → Nat → FetchResult
  | 0, _, le, de, rq =>
    ⟨.error (le.getD (.downloadFailed maxRetries)), de, rq⟩
  | fuel + 1, attempt, le, de, rq =>
    match resp attempt with
    | .response status body =>
      if isSuccess status then ⟨.ok body, de, rq + 1⟩
      else if status = 404 then ⟨.error (.notFound url), de, rq + 1⟩
      else
        downloadGo url resp maxRetries fuel (attempt + 1)
          (some (.httpError status))
          (de ++ if attempt < maxRetries then [2 ^ attempt] else []) (rq + 1)
    | .failed msg =>
        downloadGo url resp maxRetries fuel (attempt + 1)
          (some (.requestError msg))
          (de ++ if attempt < maxRetries then [2 ^ attempt] else []) (rq + 1)

/-- `downloader.rs::download_with_retry`. -/
def download_with_retry (url : String) (resp : Nat → ReqOutcome)
    (maxRetries : Nat) : FetchResult :=
  downloadGo url resp maxRetries maxRetries 1 none [] 0

/-- A transient attempt outcome: a non-success, non-404 status, or a
transport error. -/
def isTransient : ReqOutcome → Prop
  | .response status _ => isSuccess status = false ∧ status ≠ 404
  | .failed _ => True

/-- URL built by the `download_ngs_*` functions. -/
def ngsUrl (kind : String) (year : Int) : String :=
  ("https://github.com/nflverse/nflverse-data/releases/download/nextgen_stats/ngs_")
    ++ toString year ++ ("_") ++ kind ++ (".csv")

/-- `downloader.rs::download_ngs_passing`: seasons before 2016 fail
immediately (no request, no retry); otherwise download with retry. -/
def download_ngs_passing (resp : Nat → ReqOutcome) (maxRetries : Nat)
    (year : Int) : FetchResult :=
  if year < 2016 then ⟨.error .dataUnavailable, [], 0⟩
  else download_with_retry (ngsUrl ("passing") year) resp maxRetries

/-- `downloader.rs::download_ngs_rushing`. -/
def download_ngs_rushing (resp : Nat → ReqOutcome) (maxRetries : Nat)
    (year : Int) : FetchResult :=
  if year < 2016 then ⟨.error .dataUnavailable, [], 0⟩
  else download_with_retry (ngsUrl ("rushing") year) resp maxRetries

/-- `downloader.rs::download_ngs_receiving`. -/
def download_ngs_receiving (resp : Nat → ReqOutcome) (maxRetries : Nat)
    (year : Int) : FetchResult :=
  if year < 2016 then ⟨.error .dataUnavailable, [], 0⟩
  else download_with_retry (ngsUrl ("receiving") year) resp maxRetries

/-! ## Record types (parser.rs)

`main.rs` declares `mod parser` and `sync.rs` / `validator.rs` consume
`parser::{RosterPlayer, PlayerStat, Game}`, but `parser.rs` itself is not
among the sources. -/

/-- Modelled from the spec: `parser.rs` (the `RosterPlayer` record) is
missing from the sources; fields follow §3 "RosterRecord" of the spec
and the uses in `sync.rs::upsert_player` / `validator.rs`. -/
structure RosterPlayer where
  season : Int
  team : String
  position : String
  jersey_number : Option Int
  status : Option String
  full_name : String
  height : Option String
  weight : Option Int
  college : Option String
  gsis_id : String
deriving DecidableEq, Repr

/-- Modelled from the spec: `parser.rs` (the `Game` record) is missing
from the sources; fields follow §3 "GameRecord" of the spec and the uses
in `sync.rs::upsert_game` / `validator.rs`. -/
structure Game where
  game_id : String
  season : Int
  game_type : String
  week : Int
  gameday : String
  away_team : String
  away_score : Option Int
  home_team : String
  home_score : Option Int
deriving DecidableEq, Repr

/-- Modelled from the spec: `parser.rs` (the `PlayerStat` record) is
missing from the sources; fields follow §3 "PlayerStatRecord" of the
spec and the uses in `sync.rs::upsert_stat` / `validator.rs`.  The
yardage/attempt fields are `Option<f64>` in Rust and are cast with
`as i32` before storage; the model carries the already-cast integers
(the cast is a fixed deterministic function, irrelevant to the claims
settled here). -/
structure PlayerStat where
  player_id : String
  player_display_name : Option String
  season : Int
  week : Int
  season_type : String
  passing_yards : Option Int
  rushing_yards : Option Int
  receiving_yards : Option Int
  passing_tds : Option Int
  rushing_tds : Option Int
  receiving_tds : Option Int
  receptions : Option Int
  targets : Option Int
  attempts : Option Int
  completions : Option Int
  interceptions : Option Int
deriving DecidableEq, Repr

/-! ## Stored rows (the tables of §6 "Persisted schema")

Surrogate `uuid_generate_v4()` ids are modelled by an allocation
counter; timestamp columns are excluded (see the header comment). -/

/-- A row of `players`. -/
structure PlayerRow where
  id : Nat
  nfl_id : String
  name : String
  position : String
  team_id : Option Nat
  jersey_number : Option Int
  height_inches : Option Int
  weight_pounds : Option Int
  college : Option String
  status : String
deriving DecidableEq, Repr

/-- A row of `games`.  The team columns hold the looked-up team ids
(present whenever the row was inserted, since `upsert_game` skips
records whose teams do not resolve). -/
structure GameRow where
  id : Nat
  nfl_game_id : String
  season : Int
  week : Int
  game_date : String
  home_team_id : Option Nat
  away_team_id : Option Nat
  home_score : Option Int
  away_score : Option Int
  status : String
deriving DecidableEq, Repr

/-- A row of `game_stats`. -/
structure StatRow where
  id : Nat
  player_id : Nat
  season : Int
  week : Int
  passing_yards : Option Int
  rushing_yards : Option Int
  receiving_yards : Option Int
  passing_tds : Option Int
  rushing_tds : Option Int
  receiving_tds : Option Int
  receptions : Option Int
  targets : Option Int
  attempts : Option Int
  completions : Option Int
  interceptions : Option Int
deriving DecidableEq, Repr

/-- A row of `import_progress` (`database.rs::mark_progress`). -/
structure ProgressRow where
  season : Int
  data_type : String
  status : String
  records_imported : Int
deriving DecidableEq, Repr

/-- The relational store owned by the pipeline, plus the static `teams`
reference table is passed separately (the pipeline only reads it). -/
structure Store where
  players : List PlayerRow
  games : List GameRow
  stats : List StatRow
  progress : List ProgressRow
  nextId : Nat
deriving DecidableEq, Repr

/-- The fresh store of the idempotence property. -/
def emptyStore : Store := ⟨[], [], [], [], 0⟩

/-- `database.rs::get_team_id_by_abbr`: look a team id up by
abbreviation in the static `teams` table. -/
def get_team_id_by_abbr (teams : List (String × Nat)) (abbr : String) :
    Option Nat :=
  teams.lookup abbr

/-- `database.rs::get_player_id_by_nfl_id` against a players table. -/
def get_player_id_by_nfl_id (players : List PlayerRow) (nflId : String) :
    Option Nat :=
  (players.find? (fun r => r.nfl_id = nflId)).map (fun r => r.id)

/-! ## Generic keyed upsert

`INSERT .. ON CONFLICT (key) DO UPDATE` over a row list with an
allocation counter for the surrogate id.  `key` resolves a record to its
natural key (`none` models the dependency-resolution skip of
`upsert_game` / `upsert_stat`); `keyOf` reads a row's natural key;
`mk nid k t` builds the inserted row; `ow r t` overwrites the mutable
columns of an existing row. -/

section GenericUpsert

variable {K R T : Type} [DecidableEq K]

/-- Whether some row of the table carries natural key `k` (the
`ON CONFLICT` condition). -/
def hasK (keyOf : R → K) (rows : List R) (k : K) : Bool :=
  rows.any (fun r => decide (keyOf r = k))

/-- One upsert: skip if the key does not resolve; update in place on
conflict; append a fresh row (consuming one surrogate id) otherwise. -/
def upsertRow (key : T → Option K) (keyOf : R → K) (mk : Nat → K → T → R)
    (ow : R → T → R) (st : List R × Nat) (t : T) : List R × Nat :=
  match key t with
  | none => st
  | some k =>
    if hasK keyOf st.1 k then
      (st.1.map (fun r => if keyOf r = k then ow r t else r), st.2)
    else
      (st.1 ++ [mk st.2 k t], st.2 + 1)

/-- Folding a record list through `upsertRow`. -/
def applyAll (key : T → Option K) (keyOf : R → K) (mk : Nat → K → T → R)
    (ow : R → T → R) (st : List R × Nat) (L : List T) : List R × Nat :=
  L.foldl (upsertRow key keyOf mk ow) st

/-- The effect of one record on one already-present row. -/
def stepRow (key : T → Option K) (keyOf : R → K) (ow : R → T → R)
    (r : R) (t : T) : R :=
  match key t with
  | none => r
  | some k => if keyOf r = k then ow r t else r

/-- The cumulative effect of a record list on one already-present row. -/
def runRows (key : T → Option K) (keyOf : R → K) (ow : R → T → R)
    (r : R) (L : List T) : R :=
  L.foldl (stepRow key keyOf ow) r

/-- The last record of `L` whose key resolves to `k` (the record whose
values win under last-write-wins upserting). -/
def lastFor (key : T → Option K) (k : K) : List T → Option T
  | [] => none
  | t :: L =>
    match lastFor key k L with
    | some t' => some t'
    | none => if key t = some k then some t else none

end GenericUpsert

/-- A boolean `any` is unchanged by mapping with a predicate-preserving
function. -/
theorem any_map_pointwise {α : Type} (l : List α) (f : α → α) (p : α → Bool)
    (h : ∀ a ∈ l, p (f a) = p a) : (l.map f).any p = l.any p := by
  induction l with
  | nil => rfl
  | cons a l ih =>
    simp only [List.map_cons, List.any_cons, h a (List.mem_cons_self a l)]
    rw [ih (fun b hb => h b (List.mem_cons_of_mem a hb))]

theorem hasK_of_mem {K R : Type} [DecidableEq K] (keyOf : R → K)
    {rows : List R} {r : R} (hmem : r ∈ rows) :
    hasK keyOf rows (keyOf r) = true := by
  simp only [hasK, List.any_eq_true, decide_eq_true_eq]
  exact ⟨r, hmem, rfl⟩

theorem ne_of_hasK_false {K R : Type} [DecidableEq K] (keyOf : R → K)
    {rows : List R} {r : R} {k : K}
    (h : hasK keyOf rows k = false) (hmem : r ∈ rows) : keyOf r ≠ k := by
  simp only [hasK, List.any_eq_false, decide_eq_true_eq] at h
  exact h r hmem

theorem keyOf_stepRow {K R T : Type} [DecidableEq K]
    (key : T → Option K) (keyOf : R → K) (ow : R → T → R)
    (hOwKey : ∀ r t, keyOf (ow r t) = keyOf r)
    (r : R) (t : T) : keyOf (stepRow key keyOf ow r t) = keyOf r := by
  unfold stepRow
  cases key t with
  | none => rfl
  | some k => by_cases h : keyOf r = k <;> simp [h, hOwKey]

theorem keyOf_runRows {K R T : Type} [DecidableEq K]
    (key : T → Option K) (keyOf : R → K) (ow : R → T → R)
    (hOwKey : ∀ r t, keyOf (ow r t) = keyOf r)
    (L : List T) (r : R) :
    keyOf (runRows key keyOf ow r L) = keyOf r := by
  induction L generalizing r with
  | nil => rfl
  | cons t L ih =>
    simp only [runRows, List.foldl_cons] at *
    rw [ih, keyOf_stepRow key keyOf ow hOwKey]

theorem hasK_map_step {K R T : Type} [DecidableEq K]
    (keyOf : R → K) (ow : R → T → R)
    (hOwKey : ∀ r t, keyOf (ow r t) = keyOf r)
    (rows : List R) (t : T) (k k' : K) :
    hasK keyOf (rows.map (fun r => if keyOf r = k then ow r t else r)) k'
      = hasK keyOf rows k' := by
  apply any_map_pointwise
  intro r _
  by_cases h : keyOf r = k <;> simp [h, hOwKey]

theorem hasK_upsertRow_mono {K R T : Type} [DecidableEq K]
    (key : T → Option K) (keyOf : R → K) (mk : Nat → K → T → R)
    (ow : R → T → R) (hOwKey : ∀ r t, keyOf (ow r t) = keyOf r)
    {st : List R × Nat} {t : T} {k' : K}
    (h : hasK keyOf st.1 k' = true) :
    hasK keyOf (upsertRow key keyOf mk ow st t).1 k' = true := by
  unfold upsertRow
  cases key t with
  | none => exact h
  | some k =>
    cases hc : hasK keyOf st.1 k with
    | true =>
      simp only [hc, if_true]
      rw [hasK_map_step keyOf ow hOwKey]
      exact h
    | false =>
      simp only [hc, Bool.false_eq_true, if_false]
      simp only [hasK, List.any_append] at h ⊢
      simp [h]

theorem hasK_upsertRow_self {K R T : Type} [DecidableEq K]
    (key : T → Option K) (keyOf : R → K) (mk : Nat → K → T → R)
    (ow : R → T → R) (hOwKey : ∀ r t, keyOf (ow r t) = keyOf r)
    (hMkKey : ∀ i k t, key t = some k → keyOf (mk i k t) = k)
    {st : List R × Nat} {t : T} {k : K} (hk : key t = some k) :
    hasK keyOf (upsertRow key keyOf mk ow st t).1 k = true := by
  unfold upsertRow
  rw [hk]
  cases hc : hasK keyOf st.1 k with
  | true =>
    simp only [hc, if_true]
    rw [hasK_map_step keyOf ow hOwKey]
    exact hc
  | false =>
    simp only [hc, Bool.false_eq_true, if_false]
    simp [hasK, List.any_append, hMkKey _ _ _ hk]

theorem hasK_applyAll_mono {K R T : Type} [DecidableEq K]
    (key : T → Option K) (keyOf : R → K) (mk : Nat → K → T → R)
    (ow : R → T → R) (hOwKey : ∀ r t, keyOf (ow r t) = keyOf r)
    {st : List R × Nat} {L : List T} {k' : K}
    (h : hasK keyOf st.1 k' = true) :
    hasK keyOf (applyAll key keyOf mk ow st L).1 k' = true := by
  induction L generalizing st with
  | nil => exact h
  | cons t L ih =>
    simp only [applyAll, List.foldl_cons]
    exact ih (hasK_upsertRow_mono key keyOf mk ow hOwKey h)

theorem hasK_applyAll_of_mem {K R T : Type} [DecidableEq K]
    (key : T → Option K) (keyOf : R → K) (mk : Nat → K → T → R)
    (ow : R → T → R) (hOwKey : ∀ r t, keyOf (ow r t) = keyOf r)
    (hMkKey : ∀ i k t, key t = some k → keyOf (mk i k t) = k)
    {st : List R × Nat} {L : List T} {t : T} {k : K}
    (hmem : t ∈ L) (hk : key t = some k) :
    hasK keyOf (applyAll key keyOf mk ow st L).1 k = true := by
  induction L generalizing st with
  | nil => cases hmem
  | cons t' L ih =>
    simp only [applyAll, List.foldl_cons]
    rcases List.mem_cons.mp hmem with h | h
    · subst h
      exact hasK_applyAll_mono key keyOf mk ow hOwKey
        (hasK_upsertRow_self key keyOf mk ow hOwKey hMkKey hk)
    · exact ih h

theorem applyAll_nil {K R T : Type} [DecidableEq K]
    (key : T → Option K) (keyOf : R → K) (mk : Nat → K → T → R)
    (ow : R → T → R) (st : List R × Nat) :
    applyAll key keyOf mk ow st [] = st := rfl

theorem applyAll_cons {K R T : Type} [DecidableEq K]
    (key : T → Option K) (keyOf : R → K) (mk : Nat → K → T → R)
    (ow : R → T → R) (st : List R × Nat) (t : T) (L : List T) :
    applyAll key keyOf mk ow st (t :: L)
      = applyAll key keyOf mk ow (upsertRow key keyOf mk ow st t) L := rfl

/-- If every key occurring in `L` is already present in the table, the
whole fold is update-only: the row list is mapped pointwise and the
surrogate-id counter never moves. -/
theorem applyAll_of_allPresent {K R T : Type} [DecidableEq K]
    (key : T → Option K) (keyOf : R → K) (mk : Nat → K → T → R)
    (ow : R → T → R) (hOwKey : ∀ r t, keyOf (ow r t) = keyOf r)
    (L : List T) (st : List R × Nat)
    (hpres : ∀ t ∈ L, ∀ k, key t = some k → hasK keyOf st.1 k = true) :
    applyAll key keyOf mk ow st L
      = (st.1.map (fun r => runRows key keyOf ow r L), st.2) := by
  induction L generalizing st with
  | nil =>
    simp [applyAll, runRows]
  | cons t L ih =>
    rw [applyAll_cons]
    have hstep : ∀ r : R, runRows key keyOf ow r (t :: L)
        = runRows key keyOf ow (stepRow key keyOf ow r t) L := by
      intro r
      simp [runRows, List.foldl_cons]
    cases hk : key t with
    | none =>
      have hup : upsertRow key keyOf mk ow st t = st := by
        unfold upsertRow
        rw [hk]
      rw [hup, ih st (fun u hu k hku => hpres u (List.mem_cons_of_mem t hu) k hku)]
      congr 1
      apply List.map_congr_left
      intro r _
      rw [hstep r]
      congr 1
      unfold stepRow
      rw [hk]
    | some k =>
      have hc : hasK keyOf st.1 k = true := hpres t (List.mem_cons_self t L) k hk
      have hup : upsertRow key keyOf mk ow st t
          = (st.1.map (fun r => stepRow key keyOf ow r t), st.2) := by
        unfold upsertRow
        rw [hk]
        simp only [hc, if_true]
        congr 1
        apply List.map_congr_left
        intro r _
        unfold stepRow
        rw [hk]
      rw [hup]
      rw [ih (st.1.map (fun r => stepRow key keyOf ow r t), st.2) ?hp]
      case hp =>
        intro u hu k' hku
        have : hasK keyOf (st.1.map (fun r => stepRow key keyOf ow r t)) k'
            = hasK keyOf st.1 k' := by
          apply any_map_pointwise
          intro r _
          rw [keyOf_stepRow key keyOf ow hOwKey]
        rw [this]
        exact hpres u (List.mem_cons_of_mem t hu) k' hku
      simp only [List.map_map]
      have hfun : ∀ r ∈ st.1,
          ((fun r => runRows key keyOf ow r L)
            ∘ (fun r => stepRow key keyOf ow r t)) r
            = runRows key keyOf ow r (t :: L) := by
        intro r _
        simp only [Function.comp]
        rw [hstep r]
      rw [List.map_congr_left hfun]

/-- Last-write-wins characterization of the cumulative per-row effect:
the row ends up overwritten by the last record carrying its key, all
earlier overwrites being absorbed. -/
theorem runRows_lastFor {K R T : Type} [DecidableEq K]
    (key : T → Option K) (keyOf : R → K) (ow : R → T → R)
    (hOwKey : ∀ r t, keyOf (ow r t) = keyOf r)
    (hOwOw : ∀ r t t', ow (ow r t) t' = ow r t')
    (L : List T) (r : R) :
    runRows key keyOf ow r L
      = (match lastFor key (keyOf r) L with
         | some t => ow r t
         | none => r) := by
  induction L generalizing r with
  | nil => rfl
  | cons t L ih =>
    have hcons : runRows key keyOf ow r (t :: L)
        = runRows key keyOf ow (stepRow key keyOf ow r t) L := by
      simp [runRows, List.foldl_cons]
    rw [hcons, ih (stepRow key keyOf ow r t),
      keyOf_stepRow key keyOf ow hOwKey]
    cases hl : lastFor key (keyOf r) L with
    | some t' =>
      simp only [lastFor, hl]
      unfold stepRow
      cases hk : key t with
      | none => rfl
      | some k =>
        by_cases hkr : keyOf r = k
        · simp [hkr, hOwOw]
        · simp [hkr]
    | none =>
      simp only [lastFor, hl]
      unfold stepRow
      cases hk : key t with
      | none => simp
      | some k =>
        by_cases hkr : k = keyOf r
        · subst hkr
          simp
        · have h1 : keyOf r ≠ k := fun h => hkr h.symm
          simp [h1, hkr]

/-- Every row present after a fold is either untouched by `L` (no record
of `L` carries its key) or already carries the values of the last record
with its key, so re-overwriting it with that record is the identity. -/
theorem mem_applyAll_absorb {K R T : Type} [DecidableEq K]
    (key : T → Option K) (keyOf : R → K) (mk : Nat → K → T → R)
    (ow : R → T → R)
    (hOwKey : ∀ r t, keyOf (ow r t) = keyOf r)
    (hOwOw : ∀ r t t', ow (ow r t) t' = ow r t')
    (hMkKey : ∀ i k t, key t = some k → keyOf (mk i k t) = k)
    (hOwMk : ∀ i k t, key t = some k → ow (mk i k t) t = mk i k t)
    (L : List T) (st : List R × Nat) (r : R)
    (hmem : r ∈ (applyAll key keyOf mk ow st L).1) :
    (lastFor key (keyOf r) L = none ∧ r ∈ st.1)
      ∨ (∃ t, lastFor key (keyOf r) L = some t ∧ ow r t = r) := by
  induction L generalizing st with
  | nil =>
    exact Or.inl ⟨rfl, hmem⟩
  | cons t L ih =>
    rw [applyAll_cons] at hmem
    rcases ih (upsertRow key keyOf mk ow st t) hmem with ⟨hl, hr⟩ | ⟨t', hl, ho⟩
    · unfold upsertRow at hr
      cases hk : key t with
      | none =>
        rw [hk] at hr
        refine Or.inl ⟨?_, hr⟩
        simp only [lastFor, hl, hk]
        simp
      | some k =>
        rw [hk] at hr
        cases hc : hasK keyOf st.1 k with
        | true =>
          simp only [hc, if_true] at hr
          rcases List.mem_map.mp hr with ⟨r0, hr0, heq⟩
          by_cases hk0 : keyOf r0 = k
          · rw [if_pos hk0] at heq
            subst heq
            refine Or.inr ⟨t, ?_, hOwOw r0 t t⟩
            simp only [lastFor, hl]
            rw [hOwKey, hk0, hk]
            simp
          · rw [if_neg hk0] at heq
            subst heq
            refine Or.inl ⟨?_, hr0⟩
            simp only [lastFor, hl, hk, Option.some.injEq]
            rw [if_neg (fun h => hk0 h.symm)]
        | false =>
          simp only [hc, Bool.false_eq_true, if_false] at hr
          rcases List.mem_append.mp hr with hin | hnew
          · refine Or.inl ⟨?_, hin⟩
            have hne : keyOf r ≠ k := ne_of_hasK_false keyOf hc hin
            simp only [lastFor, hl, hk, Option.some.injEq]
            rw [if_neg (fun h => hne h.symm)]
          · have heq : r = mk st.2 k t := List.mem_singleton.mp hnew
            subst heq
            refine Or.inr ⟨t, ?_, hOwMk _ _ _ hk⟩
            simp only [lastFor, hl]
            rw [hMkKey _ _ _ hk, hk]
            simp
    · refine Or.inr ⟨t', ?_, ho⟩
      simp only [lastFor, hl]

theorem map_id_of_mem {α : Type} (l : List α) (f : α → α)
    (h : ∀ a ∈ l, f a = a) : l.map f = l := by
  induction l with
  | nil => rfl
  | cons a l ih =>
    simp only [List.map_cons, h a (List.mem_cons_self a l)]
    rw [ih (fun b hb => h b (List.mem_cons_of_mem a hb))]

/-- Replay theorem: re-folding the same record list over the rows it
already produced (with any surrogate-id counter) changes nothing — the
`ON CONFLICT` upsert semantics make a second identical import a no-op. -/
theorem applyAll_replay {K R T : Type} [DecidableEq K]
    (key : T → Option K) (keyOf : R → K) (mk : Nat → K → T → R)
    (ow : R → T → R)
    (hOwKey : ∀ r t, keyOf (ow r t) = keyOf r)
    (hOwOw : ∀ r t t', ow (ow r t) t' = ow r t')
    (hMkKey : ∀ i k t, key t = some k → keyOf (mk i k t) = k)
    (hOwMk : ∀ i k t, key t = some k → ow (mk i k t) t = mk i k t)
    (st : List R × Nat) (L : List T) (m : Nat) :
    applyAll key keyOf mk ow ((applyAll key keyOf mk ow st L).1, m) L
      = ((applyAll key keyOf mk ow st L).1, m) := by
  have hpres : ∀ t ∈ L, ∀ k, key t = some k →
      hasK keyOf ((applyAll key keyOf mk ow st L).1, m).1 k = true := by
    intro t ht k hk
    exact hasK_applyAll_of_mem key keyOf mk ow hOwKey hMkKey ht hk
  rw [applyAll_of_allPresent key keyOf mk ow hOwKey L _ hpres]
  have habs : ∀ r ∈ (applyAll key keyOf mk ow st L).1,
      runRows key keyOf ow r L = r := by
    intro r hr
    rcases mem_applyAll_absorb key keyOf mk ow hOwKey hOwOw hMkKey hOwMk
      L st r hr with ⟨hl, _⟩ | ⟨t, hl, ho⟩
    · rw [runRows_lastFor key keyOf ow hOwKey hOwOw, hl]
    · rw [runRows_lastFor key keyOf ow hOwKey hOwOw, hl]
      exact ho
  rw [map_id_of_mem _ _ habs]

/-! ## sync.rs — concrete upserts -/

/-- Key resolution for a roster record: the natural key is `gsis_id`
(bound to the `nfl_id` column); `upsert_player` never skips. -/
def playerKey (p : RosterPlayer) : Option String :=
  some p.gsis_id

/-- `upsert_player`'s insert: the row built by the `INSERT` column list,
with the team id resolved via `normalize_team_abbr` and the height via
`height_to_inches`, `status` defaulting to `"active"`. -/
def mkPlayerRow (teams : List (String × Nat)) (nid : Nat) (_k : String)
    (p : RosterPlayer) : PlayerRow :=
  { id := nid
    nfl_id := p.gsis_id
    name := p.full_name
    position := p.position
    team_id := get_team_id_by_abbr teams (normalize_team_abbr p.team)
    jersey_number := p.jersey_number
    height_inches := p.height.bind height_to_inches
    weight_pounds := p.weight
    college := p.college
    status := p.status.getD ("active") }

/-- `upsert_player`'s `ON CONFLICT (nfl_id) DO UPDATE` column list:
everything but `id`, `nfl_id`, `created_at`. -/
def owPlayerRow (teams : List (String × Nat)) (r : PlayerRow)
    (p : RosterPlayer) : PlayerRow :=
  { r with
    name := p.full_name
    position := p.position
    team_id := get_team_id_by_abbr teams (normalize_team_abbr p.team)
    jersey_number := p.jersey_number
    height_inches := p.height.bind height_to_inches
    weight_pounds := p.weight
    college := p.college
    status := p.status.getD ("active") }

/-- `sync.rs::upsert_player` on the `players` table. -/
def upsert_player (teams : List (String × Nat))
    (st : List PlayerRow × Nat) (p : RosterPlayer) : List PlayerRow × Nat :=
  upsertRow playerKey PlayerRow.nfl_id (mkPlayerRow teams) (owPlayerRow teams)
    st p

/-- Key resolution for a game record: `upsert_game` resolves both team
abbreviations first and skips the record (with a warning) if either is
unknown; the natural key is `game_id` (column `nfl_game_id`). -/
def gameKey (teams : List (String × Nat)) (g : Game) : Option String :=
  if (get_team_id_by_abbr teams (normalize_team_abbr g.home_team)).isSome
      ∧ (get_team_id_by_abbr teams (normalize_team_abbr g.away_team)).isSome
  then some g.game_id
  else none

/-- `upsert_game`'s insert column list (`status` is the constant
`"final"`). -/
def mkGameRow (teams : List (String × Nat)) (nid : Nat) (_k : String)
    (g : Game) : GameRow :=
  { id := nid
    nfl_game_id := g.game_id
    season := g.season
    week := g.week
    game_date := g.gameday
    home_team_id := get_team_id_by_abbr teams (normalize_team_abbr g.home_team)
    away_team_id := get_team_id_by_abbr teams (normalize_team_abbr g.away_team)
    home_score := g.home_score
    away_score := g.away_score
    status := ("final") }

/-- `upsert_game`'s `ON CONFLICT (nfl_game_id) DO UPDATE` column list:
only the scores and the status are overwritten. -/
def owGameRow (r : GameRow) (g : Game) : GameRow :=
  { r with
    home_score := g.home_score
    away_score := g.away_score
    status := ("final") }

/-- `sync.rs::upsert_game` on the `games` table. -/
def upsert_game (teams : List (String × Nat))
    (st : List GameRow × Nat) (g : Game) : List GameRow × Nat :=
  upsertRow (gameKey teams) GameRow.nfl_game_id (mkGameRow teams)
    (fun r g => owGameRow r g) st g

/-- Key resolution for a stat record: `upsert_stat` looks the player up
by `nfl_id` and silently skips the record if the player is unknown; the
natural key is `(player_id, season, week)`. -/
def statKey (players : List PlayerRow) (st : PlayerStat) :
    Option (Nat × Int × Int) :=
  (get_player_id_by_nfl_id players st.player_id).map
    (fun pid => (pid, st.season, st.week))

/-- The key of a stored stat row. -/
def statRowKey (r : StatRow) : Nat × Int × Int :=
  (r.player_id, r.season, r.week)

/-- `upsert_stat`'s insert column list (`player_id` is the resolved
surrogate id carried by the key). -/
def mkStatRow (nid : Nat) (k : Nat × Int × Int) (s : PlayerStat) : StatRow :=
  { id := nid
    player_id := k.1
    season := s.season
    week := s.week
    passing_yards := s.passing_yards
    rushing_yards := s.rushing_yards
    receiving_yards := s.receiving_yards
    passing_tds := s.passing_tds
    rushing_tds := s.rushing_tds
    receiving_tds := s.receiving_tds
    receptions := s.receptions
    targets := s.targets
    attempts := s.attempts
    completions := s.completions
    interceptions := s.interceptions }

/-- `upsert_stat`'s `ON CONFLICT (player_id, season, week) DO UPDATE`
column list: all statistic columns. -/
def owStatRow (r : StatRow) (s : PlayerStat) : StatRow :=
  { r with
    passing_yards := s.passing_yards
    rushing_yards := s.rushing_yards
    receiving_yards := s.receiving_yards
    passing_tds := s.passing_tds
    rushing_tds := s.rushing_tds
    receiving_tds := s.receiving_tds
    receptions := s.receptions
    targets := s.targets
    attempts := s.attempts
    completions := s.completions
    interceptions := s.interceptions }

/-- `sync.rs::upsert_stat` on the `game_stats` table, with the player
lookup taken against the given `players` table. -/
def upsert_stat (players : List PlayerRow)
    (st : List StatRow × Nat) (s : PlayerStat) : List StatRow × Nat :=
  upsertRow (statKey players) statRowKey mkStatRow
    (fun r s => owStatRow r s) st s

/-- `database.rs::mark_progress`: upsert into `import_progress` keyed by
`(season, data_type)`, overwriting `status` and `records_imported` on
conflict (`started_at` is preserved, `completed_at` overwritten — both
timestamps are outside the model).  The table has no surrogate id, so
the counter argument of the generic upsert is unused (fixed to 0). -/
def progressKey (t : Int × String × String × Int) : Option (Int × String) :=
  some (t.1, t.2.1)

def progressRowKey (r : ProgressRow) : Int × String :=
  (r.season, r.data_type)

def mkProgressRow (_nid : Nat) (_k : Int × String)
    (t : Int × String × String × Int) : ProgressRow :=
  { season := t.1, data_type := t.2.1, status := t.2.2.1,
    records_imported := t.2.2.2 }

def owProgressRow (r : ProgressRow) (t : Int × String × String × Int) :
    ProgressRow :=
  { r with status := t.2.2.1, records_imported := t.2.2.2 }

def mark_progress (rows : List ProgressRow)
    (t : Int × String × String × Int) : List ProgressRow :=
  (upsertRow progressKey progressRowKey mkProgressRow owProgressRow
    (rows, 0) t).1

/-! ## sync.rs — store-level operations, batching, imports -/

/-- `config.rs::Config` (the `database_url` string is irrelevant to the
modelled behaviour but kept for shape). -/
structure Config where
  database_url : String
  mode : String
  year : Int
  start_year : Int
  end_year : Int
  dry_run : Bool
  batch_size : Nat
  max_retries : Nat
deriving DecidableEq, Repr

/-- `upsert_player` acting on the whole store. -/
def upsertPlayerS (teams : List (String × Nat)) (s : Store)
    (p : RosterPlayer) : Store :=
  { s with
    players := (upsert_player teams (s.players, s.nextId) p).1
    nextId := (upsert_player teams (s.players, s.nextId) p).2 }

/-- `upsert_game` acting on the whole store. -/
def upsertGameS (teams : List (String × Nat)) (s : Store) (g : Game) :
    Store :=
  { s with
    games := (upsert_game teams (s.games, s.nextId) g).1
    nextId := (upsert_game teams (s.games, s.nextId) g).2 }

/-- `upsert_stat` acting on the whole store (the player lookup reads the
live `players` table, which stat upserts never modify). -/
def upsertStatS (s : Store) (st : PlayerStat) : Store :=
  { s with
    stats := (upsert_stat s.players (s.stats, s.nextId) st).1
    nextId := (upsert_stat s.players (s.stats, s.nextId) st).2 }

/-- `sync.rs::upsert_players_batch`: under `dry_run` return immediately
(no per-record work at all); otherwise upsert each record in order. -/
def upsert_players_batch (cfg : Config) (teams : List (String × Nat))
    (s : Store) (batch : List RosterPlayer) : Store :=
  if cfg.dry_run then s
  else batch.foldl (upsertPlayerS teams) s

/-- `sync.rs::upsert_games_batch`. -/
def upsert_games_batch (cfg : Config) (teams : List (String × Nat))
    (s : Store) (batch : List Game) : Store :=
  if cfg.dry_run then s
  else batch.foldl (upsertGameS teams) s

/-- `sync.rs::upsert_stats_batch` (per-record SQL errors are caught and
logged in the source; the pure model has no failing writes). -/
def upsert_stats_batch (cfg : Config) (s : Store)
    (batch : List PlayerStat) : Store :=
  if cfg.dry_run then s
  else batch.foldl upsertStatS s

/-- The batch-accumulation loop shared by the `import_*` functions of
`sync.rs`: push each record, flush once the batch reaches
`cfg.batch_size`, flush the final partial batch, and count every record
of every flushed batch into `imported`. -/
def runBatches {T : Type} (flush : Store → List T → Store) (bs : Nat) :
    List T → Store → List T → Nat → Store × Nat
  | [], s, batch, count =>
    if batch.isEmpty then (s, count) else (flush s batch, count + batch.length)
  | r :: rest, s, batch, count =>
    if bs ≤ (batch ++ [r]).length then
      runBatches flush bs rest (flush s (batch ++ [r])) []
        (count + (batch ++ [r]).length)
    else
      runBatches flush bs rest s (batch ++ [r]) count

/-- `sync.rs::import_rosters` on already-parsed records (the CSV rows
that fail to deserialize are logged and skipped upstream): batch-upsert
everything, then mark progress under `"rosters"` unless `dry_run`. -/
def import_rosters (cfg : Config) (teams : List (String × Nat))
    (year : Int) (records : List RosterPlayer) (s : Store) : Store × Nat :=
  let r := runBatches (upsert_players_batch cfg teams) cfg.batch_size
    records s [] 0
  if cfg.dry_run then r
  else
    ({ r.1 with progress := mark_progress r.1.progress (year, ("rosters"), ("completed"), (r.2 : Int)) }, r.2)

/-- `sync.rs::import_schedule`: only `game_type == "REG"` records are
batched; progress is marked under `"schedule"`. -/
def import_schedule (cfg : Config) (teams : List (String × Nat))
    (year : Int) (records : List Game) (s : Store) : Store × Nat :=
  let r := runBatches (upsert_games_batch cfg teams) cfg.batch_size
    (records.filter (fun g => g.game_type = ("REG"))) s [] 0
  if cfg.dry_run then r
  else
    ({ r.1 with progress := mark_progress r.1.progress (year, ("schedule"), ("completed"), (r.2 : Int)) }, r.2)

/-- `sync.rs::import_player_stats`: only `season_type == "REG"` records
are batched; progress is marked under `"player_stats"`. -/
def import_player_stats (cfg : Config) (year : Int)
    (records : List PlayerStat) (s : Store) : Store × Nat :=
  let r := runBatches (upsert_stats_batch cfg) cfg.batch_size
    (records.filter (fun st => st.season_type = ("REG"))) s [] 0
  if cfg.dry_run then r
  else
    ({ r.1 with progress := mark_progress r.1.progress (year, ("player_stats"), ("completed"), (r.2 : Int)) }, r.2)

/-- One season's import as the claims describe the "full import" of the
data categories: rosters, then schedule, then player stats, each by the
`sync.rs` import function of that category.  (`import_year` itself skips
the schedule step; `import_schedule` is included here exactly as defined
in the source.) -/
def importSeason (cfg : Config) (teams : List (String × Nat)) (year : Int)
    (rosters : List RosterPlayer) (games : List Game)
    (stats : List PlayerStat) (s : Store) : Store :=
  (import_player_stats cfg year stats
    (import_schedule cfg teams year games
      (import_rosters cfg teams year rosters s).1).1).1

/-! ## sync.rs — import_year / run_full_import -/

/-- The data categories of the pipeline. -/
inductive Category where
  | rosters
  | schedule
  | playerStats
  | ngsPassing
deriving DecidableEq, Repr

/-- The download-and-parse results feeding one year's import (the
`downloader` calls inside the `import_*` functions, with CSV rows
already deserialized; rows failing to parse are logged and skipped). -/
structure YearInput where
  rosterDl : Except FetchError (List RosterPlayer)
  statsDl : Except FetchError (List PlayerStat)
  ngsDl : Except FetchError String
deriving Repr

/-- `import_rosters` including its download step: a failed download
propagates as an error (caught by `import_year`). -/
def importRostersDl (cfg : Config) (teams : List (String × Nat))
    (year : Int) (dl : Except FetchError (List RosterPlayer)) (s : Store) :
    Except FetchError (Store × Nat) :=
  match dl with
  | .error e => .error e
  | .ok records => .ok (import_rosters cfg teams year records s)

/-- `import_player_stats` including its download step. -/
def importPlayerStatsDl (cfg : Config) (year : Int)
    (dl : Except FetchError (List PlayerStat)) (s : Store) :
    Except FetchError (Store × Nat) :=
  match dl with
  | .error e => .error e
  | .ok records => .ok (import_player_stats cfg year records s)

/-- `sync.rs::import_ngs_passing`: downloads the CSV and returns
`Ok(0)` — the parsing logic is an explicit placeholder in the source,
so a successful download writes nothing. -/
def importNgsPassingDl (dl : Except FetchError String) (s : Store) :
    Except FetchError (Store × Nat) :=
  match dl with
  | .error e => .error e
  | .ok _ => .ok (s, 0)

/-- `sync.rs::import_year`: processes rosters, then (schedule is
explicitly skipped in the source — "Use ESPN API via Go importer
instead", only a log line), then player stats, then NGS passing when
`year >= 2016`.  Every category failure is caught with a `warn!` and
the function ends in `Ok(())`.  The returned list records the
categories processed, in order. -/
def import_year (cfg : Config) (teams : List (String × Nat))
    (inp : YearInput) (year : Int) (s : Store) :
    Except String (Store × List Category) :=
  let s1 := match importRostersDl cfg teams year inp.rosterDl s with
    | .ok r => r.1
    | .error _ => s
  let s2 := match importPlayerStatsDl cfg year inp.statsDl s1 with
    | .ok r => r.1
    | .error _ => s1
  let s3 := if 2016 ≤ year then
      match importNgsPassingDl inp.ngsDl s2 with
      | .ok r => r.1
      | .error _ => s2
    else s2
  .ok (s3, [Category.rosters] ++ [Category.playerStats]
    ++ (if 2016 ≤ year then [Category.ngsPassing] else []))

/-- The year range `start_year..=end_year` iterated by
`run_full_import`. -/
def yearRange (startYear endYear : Int) : List Int :=
  (List.range (endYear + 1 - startYear).toNat).map
    (fun i => startYear + (i : Int))

/-- `sync.rs::run_full_import`: iterate the configured years; the
`Err` arm of the match on `import_year` logs the failure (modelled by
collecting the year into the failure list) and continues. -/
def run_full_import (cfg : Config) (teams : List (String × Nat))
    (inp : Int → YearInput) (s : Store) : Store × List Int :=
  (yearRange cfg.start_year cfg.end_year).foldl
    (fun acc y =>
      match import_year cfg teams (inp y) y acc.1 with
      | .ok r => (r.1, acc.2)
      | .error _ => (acc.1, acc.2 ++ [y]))
    (s, [])

/-! ## sync.rs — execution trace of a batch write (dry-run behaviour) -/

/-- Observable per-record work of `upsert_player`: the
`normalize_team_abbr` call on the record's team code, then the SQL
write. -/
inductive UpsertEvent where
  | normTeam (abbr : String)
  | dbWrite (table : String)
deriving DecidableEq, Repr

/-- The events `upsert_player` performs for one record. -/
def upsertPlayerEvents (p : RosterPlayer) : List UpsertEvent :=
  [UpsertEvent.normTeam p.team, UpsertEvent.dbWrite ("players")]

/-- `upsert_players_batch` with its execution trace: under `dry_run`
the function returns before touching any record, so no normalization,
validation or write events occur; otherwise each record is normalized
and written in order. -/
def upsertPlayersBatchTraced (cfg : Config) (teams : List (String × Nat))
    (s : Store) (batch : List RosterPlayer) : Store × List UpsertEvent :=
  if cfg.dry_run then (s, [])
  else (batch.foldl (upsertPlayerS teams) s,
    (batch.map upsertPlayerEvents).flatten)

/-! ## Claim theorems — transformer -/

/-- C6: `normalize_team_abbr` is total; each of STL, SD, OAK, SL, BLT,
CLV, HST, ARZ maps to its current code (LA, LAC, LV, LA, BAL, CLE, HOU,
ARI respectively), and every other input string is returned upper-cased
unchanged. -/
theorem c6_normalize_team_abbr_total :
    (normalize_team_abbr ("STL") = ("LA")
      ∧ normalize_team_abbr ("SD") = ("LAC")
      ∧ normalize_team_abbr ("OAK") = ("LV")
      ∧ normalize_team_abbr ("SL") = ("LA")
      ∧ normalize_team_abbr ("BLT") = ("BAL")
      ∧ normalize_team_abbr ("CLV") = ("CLE")
      ∧ normalize_team_abbr ("HST") = ("HOU")
      ∧ normalize_team_abbr ("ARZ") = ("ARI"))
    ∧ ∀ s : String, s ∉ TEAM_MAPPING.map Prod.fst →
      normalize_team_abbr s = toUpperStr s := by
  constructor
  · decide
  · intro s h
    simp [TEAM_MAPPING] at h
    unfold normalize_team_abbr
    have : TEAM_MAPPING.lookup s = none := by
      simp only [TEAM_MAPPING, List.lookup,
        beq_eq_false_iff_ne.mpr h.1, beq_eq_false_iff_ne.mpr h.2.1,
        beq_eq_false_iff_ne.mpr h.2.2.1, beq_eq_false_iff_ne.mpr h.2.2.2.1,
        beq_eq_false_iff_ne.mpr h.2.2.2.2.1,
        beq_eq_false_iff_ne.mpr h.2.2.2.2.2.1,
        beq_eq_false_iff_ne.mpr h.2.2.2.2.2.2.1,
        beq_eq_false_iff_ne.mpr h.2.2.2.2.2.2.2]
    rw [this]

/-- Witness for C6: the unmapped code KC passes through unchanged
(upper-casing is the identity on it). -/
theorem c6_normalize_team_abbr_total_witness :
    ("KC") ∉ TEAM_MAPPING.map Prod.fst
      ∧ normalize_team_abbr ("KC") = toUpperStr ("KC") :=
  ⟨by decide, c6_normalize_team_abbr_total.2 ("KC") (by decide)⟩

/-- C7: `clean_player_name` does NOT strip the `" III"` suffix as
documented — the `" II"` replacement runs first and eats the first three
characters of `" III"`, leaving a stray `"I"` glued to the name:
`"John Doe III"` becomes `"John DoeI"`, not `"John Doe"`. -/
theorem c7_clean_player_name_iii_bug :
    clean_player_name ("John Doe III") = ("John DoeI")
      ∧ clean_player_name ("John Doe III") ≠ ("John Doe")
      ∧ clean_player_name ("John Doe Jr.") = ("John Doe")
      ∧ clean_player_name ("John Doe IV") = ("John Doe") := by
  refine ⟨by decide, by decide, by decide, by decide⟩

/-- C8 counterexample: the spec example `normalizeTeamAbbr("stl") ==
"LA"` is false on the code — the `TEAM_MAPPING` lookup is
case-sensitive, `"stl"` misses, and only the fallback upper-cases. -/
theorem c8_normalize_stl_counterexample :
    normalize_team_abbr ("stl") ≠ ("LA") := by
  decide

/-- C8 amended: `normalize_team_abbr ("stl")` returns `"STL"` (the
upper-cased input), not the mapped code. -/
theorem c8_normalize_stl_amended :
    normalize_team_abbr ("stl") = ("STL") := by
  decide

/-- C10 counterexample: `height_to_inches` has no overflow guard, so a
two-part input whose parts both parse as `i32` need not return the
mathematical `12*a + b`: at `"178956971-0"` the multiplication
overflows `i32` (wrapping in a release build, panicking in a debug
build) and the wrapped value `-2147483644` is returned instead of
`2147483652`. -/
theorem c10_height_overflow_counterexample :
    height_to_inches ("178956971-0") = some (-2147483644)
      ∧ height_to_inches ("178956971-0")
        ≠ some ((178956971 : Int) * 12 + 0) := by
  refine ⟨by decide, by decide⟩

/-- C10 amended: on inputs splitting at `'-'` into exactly two parts
that both parse as `i32` values `a` and `b`, `height_to_inches` returns
`some` of `a * 12 + b` reduced to `i32` by two's-complement wrap (equal
to `12*a + b` whenever that fits in `i32`, so `"6-45"` yields 117 and
`"0-200"` yields 200); on every other input it returns `none`. -/
theorem c10_height_to_inches_amended :
    (∀ (s : String) (f i : List Char) (a b : Int),
      splitDash s.data [] = [f, i] → parseI32L f = some a →
      parseI32L i = some b →
      height_to_inches s = some (int32wrap (a * 12 + b)))
    ∧ (∀ s : String,
      (¬ ∃ (f i : List Char) (a b : Int), splitDash s.data [] = [f, i]
        ∧ parseI32L f = some a ∧ parseI32L i = some b) →
      height_to_inches s = none)
    ∧ height_to_inches ("6-45") = some 117
    ∧ height_to_inches ("0-200") = some 200 := by
  refine ⟨?_, ?_, by decide, by decide⟩
  · intro s f i a b h1 h2 h3
    unfold height_to_inches
    rw [h1]
    simp [h2, h3]
  · intro s h
    unfold height_to_inches
    cases hs : splitDash s.data [] with
    | nil => rfl
    | cons f rest =>
      cases rest with
      | nil => rfl
      | cons i rest2 =>
        cases rest2 with
        | nil =>
          cases hf : parseI32L f with
          | none => simp [hf]
          | some a =>
            cases hi : parseI32L i with
            | none => simp [hf, hi]
            | some b => exact absurd ⟨f, i, a, b, hs, hf, hi⟩ h
        | cons u rest3 => rfl

/-- Witness for C10 (amended): both branches at concrete inputs —
`"6-2"` parses to 74, `"invalid"` has no dash split of two parts. -/
theorem c10_height_to_inches_amended_witness :
    height_to_inches ("6-2") = some (int32wrap (6 * 12 + 2))
      ∧ height_to_inches ("invalid") = none :=
  ⟨c10_height_to_inches_amended.1 ("6-2") (['6']) (['2']) 6 2
      (by decide) (by decide) (by decide),
    c10_height_to_inches_amended.2.1 ("invalid") (by
      rintro ⟨f, i, a, b, hsplit, _, _⟩
      have hx : splitDash ("invalid").data [] = [("invalid").data] := by
        decide
      rw [hx] at hsplit
      simp at hsplit)⟩

/-! ## Claim theorems — downloader -/

/-- C4: for every NGS category, a season before 2016 fails immediately
with the data-unavailable error, issuing zero HTTP requests and no
backoff; from 2016 on the guard does not trigger and the download
proceeds through the retry loop. -/
theorem c4_ngs_season_guard :
    ∀ (resp : Nat → ReqOutcome) (maxRetries : Nat) (year : Int),
      (year < 2016 →
        download_ngs_passing resp maxRetries year
          = ⟨.error .dataUnavailable, [], 0⟩
        ∧ download_ngs_rushing resp maxRetries year
          = ⟨.error .dataUnavailable, [], 0⟩
        ∧ download_ngs_receiving resp maxRetries year
          = ⟨.error .dataUnavailable, [], 0⟩)
      ∧ (2016 ≤ year →
        download_ngs_passing resp maxRetries year
          = download_with_retry (ngsUrl ("passing") year) resp maxRetries
        ∧ download_ngs_rushing resp maxRetries year
          = download_with_retry (ngsUrl ("rushing") year) resp maxRetries
        ∧ download_ngs_receiving resp maxRetries year
          = download_with_retry (ngsUrl ("receiving") year) resp maxRetries) := by
  intro resp maxRetries year
  constructor
  · intro h
    refine ⟨?_, ?_, ?_⟩ <;>
      simp [download_ngs_passing, download_ngs_rushing,
        download_ngs_receiving, h]
  · intro h
    have h' : ¬ year < 2016 := not_lt.mpr h
    refine ⟨?_, ?_, ?_⟩ <;>
      simp [download_ngs_passing, download_ngs_rushing,
        download_ngs_receiving, h']

/-- Witness for C4: season 2015 fails fast with no request; season 2016
proceeds to the retry loop. -/
theorem c4_ngs_season_guard_witness :
    download_ngs_passing (fun _ => ReqOutcome.failed ("x")) 3 2015
      = ⟨.error .dataUnavailable, [], 0⟩
    ∧ download_ngs_passing (fun _ => ReqOutcome.failed ("x")) 3 2016
      = download_with_retry (ngsUrl ("passing") 2016)
          (fun _ => ReqOutcome.failed ("x")) 3 :=
  ⟨((c4_ngs_season_guard (fun _ => ReqOutcome.failed ("x")) 3 2015).1
      (by decide)).1,
    ((c4_ngs_season_guard (fun _ => ReqOutcome.failed ("x")) 3 2016).2
      (by decide)).1⟩

theorem downloadGo_step (url : String) (resp : Nat → ReqOutcome)
    (maxRetries fuel attempt : Nat) (le : Option FetchError)
    (de : List Nat) (rq : Nat) (h : isTransient (resp attempt)) :
    downloadGo url resp maxRetries (fuel + 1) attempt le de rq
      = downloadGo url resp maxRetries fuel (attempt + 1)
          (some (errOf (resp attempt)))
          (de ++ if attempt < maxRetries then [2 ^ attempt] else [])
          (rq + 1) := by
  cases hr : resp attempt with
  | response status body =>
    rw [hr] at h
    simp only [isTransient] at h
    simp [downloadGo, hr, h.1, h.2, errOf]
  | failed msg =>
    simp [downloadGo, hr, errOf]

theorem downloadGo_skip (url : String) (resp : Nat → ReqOutcome)
    (maxRetries : Nat) :
    ∀ (d a fuel : Nat) (le : Option FetchError) (de : List Nat) (rq : Nat),
      a + fuel = maxRetries + 1 →
      a + d ≤ maxRetries →
      (∀ i, a ≤ i → i < a + d → isTransient (resp i)) →
      downloadGo url resp maxRetries fuel a le de rq
        = downloadGo url resp maxRetries (fuel - d) (a + d)
            (if d = 0 then le else some (errOf (resp (a + d - 1))))
            (de ++ (List.range' a d).map (fun i => 2 ^ i)) (rq + d) := by
  intro d
  induction d with
  | zero =>
    intro a fuel le de rq h1 h2 h3
    simp
  | succ d ih =>
    intro a fuel le de rq h1 h2 h3
    obtain ⟨f, rfl⟩ : ∃ f, fuel = f + 1 := by
      cases fuel with
      | zero => exact absurd h1 (by omega)
      | succ f => exact ⟨f, rfl⟩
    rw [downloadGo_step url resp maxRetries f a le de rq
      (h3 a (le_refl a) (by omega))]
    rw [if_pos (show a < maxRetries by omega)]
    rw [ih (a + 1) f (some (errOf (resp a))) (de ++ [2 ^ a]) (rq + 1)
      (by omega) (by omega) (fun i hi1 hi2 => h3 i (by omega) (by omega))]
    have e1 : f - d = f + 1 - (d + 1) := by omega
    have e2 : a + 1 + d = a + (d + 1) := by omega
    have e3 : rq + 1 + d = rq + (d + 1) := by omega
    have e5 : (if d = 0 then some (errOf (resp a))
          else some (errOf (resp (a + (d + 1) - 1))))
        = (if d + 1 = 0 then le else some (errOf (resp (a + (d + 1) - 1)))) := by
      by_cases hd : d = 0
      · subst hd
        simp
      · rw [if_neg hd, if_neg (Nat.succ_ne_zero d)]
    have e4 : de ++ [2 ^ a] ++ (List.range' (a + 1) d).map (fun i => 2 ^ i)
        = de ++ (List.range' a (d + 1)).map (fun i => 2 ^ i) := by
      rw [List.append_assoc, List.range'_succ]
      simp
    rw [e1, e2, e3, e4, e5]

theorem c5_download_with_retry_spec :
    (∀ (url : String) (resp : Nat → ReqOutcome) (n j : Nat) (b : String),
      1 ≤ j → j ≤ n → (∀ i, 1 ≤ i → i < j → isTransient (resp i)) →
      resp j = ReqOutcome.response 404 b →
      download_with_retry url resp n
        = ⟨.error (.notFound url),
            (List.range' 1 (j - 1)).map (fun i => 2 ^ i), j⟩)
    ∧ (∀ (url : String) (resp : Nat → ReqOutcome) (body : String),
      isTransient (resp 1) → isTransient (resp 2) →
      resp 3 = ReqOutcome.response 200 body →
      download_with_retry url resp 3 = ⟨.ok body, [2, 4], 3⟩)
    ∧ (∀ (url : String) (resp : Nat → ReqOutcome) (n : Nat),
      1 ≤ n → (∀ i, 1 ≤ i → i ≤ n → isTransient (resp i)) →
      download_with_retry url resp n
        = ⟨.error (errOf (resp n)),
            (List.range' 1 (n - 1)).map (fun i => 2 ^ i), n⟩) := by
  refine ⟨?_, ?_, ?_⟩
  · intro url resp n j b hj1 hjn htr h404
    unfold download_with_retry
    rw [downloadGo_skip url resp n (j - 1) 1 n none [] 0 (by omega) (by omega)
      (fun i hi1 hi2 => htr i hi1 (by omega))]
    have hja : 1 + (j - 1) = j := by omega
    rw [hja]
    obtain ⟨g, hg⟩ : ∃ g, n - (j - 1) = g + 1 := ⟨n - (j - 1) - 1, by omega⟩
    rw [hg]
    simp [downloadGo, h404, isSuccess]
    omega
  · intro url resp body h1 h2 h3
    unfold download_with_retry
    rw [downloadGo_step url resp 3 2 1 none [] 0 h1]
    rw [downloadGo_step url resp 3 1 2 _ _ _ h2]
    simp [downloadGo, h3, isSuccess]
  · intro url resp n hn htr
    unfold download_with_retry
    rw [downloadGo_skip url resp n (n - 1) 1 n none [] 0 (by omega) (by omega)
      (fun i hi1 hi2 => htr i hi1 (by omega))]
    have h1n : 1 + (n - 1) = n := by omega
    rw [h1n]
    have hf : n - (n - 1) = 0 + 1 := by omega
    rw [hf]
    rw [downloadGo_step url resp n 0 n _ _ _ (htr n hn (le_refl n))]
    rw [if_neg (lt_irrefl n)]
    simp [downloadGo]
    omega

/-- Witness for C5: all three branches at concrete oracles — a 404 on
attempt 2 after one transient failure stops with one 2s delay; two
transient failures then a 200 return the body after delays 2s and 4s;
two transport failures with `max_retries = 2` exhaust and return the
last request error after one 2s delay. -/
theorem c5_download_with_retry_spec_witness :
    download_with_retry ("u")
        (fun i => if i = 1 then ReqOutcome.failed ("x")
          else ReqOutcome.response 404 ("")) 3
      = ⟨.error (.notFound ("u")), [2], 2⟩
    ∧ download_with_retry ("u")
        (fun i => if i ≤ 2 then ReqOutcome.failed ("x")
          else ReqOutcome.response 200 ("doc")) 3
      = ⟨.ok ("doc"), [2, 4], 3⟩
    ∧ download_with_retry ("u") (fun _ => ReqOutcome.failed ("x")) 2
      = ⟨.error (.requestError ("x")), [2], 2⟩ := by
  refine ⟨?_, ?_, ?_⟩
  · have := c5_download_with_retry_spec.1 ("u")
      (fun i => if i = 1 then ReqOutcome.failed ("x")
        else ReqOutcome.response 404 ("")) 3 2 ("")
      (by decide) (by decide)
      (fun i h1 h2 => by
        have hi : i = 1 := by omega
        subst hi
        simp [isTransient])
      (by rfl)
    simpa using this
  · have := c5_download_with_retry_spec.2.1 ("u")
      (fun i => if i ≤ 2 then ReqOutcome.failed ("x")
        else ReqOutcome.response 200 ("doc")) ("doc")
      (by simp [isTransient]) (by simp [isTransient]) (by rfl)
    simpa using this
  · have := c5_download_with_retry_spec.2.2 ("u")
      (fun _ => ReqOutcome.failed ("x")) 2
      (by decide) (fun i h1 h2 => by simp [isTransient])
    simpa [errOf] using this

/-! ## Claim theorems — sync -/

/-- Sample configuration (the defaults of `config.rs`, `dry_run`
off). -/
def cfgFull : Config :=
  ⟨("postgres://db"), ("full"), 2024, 2010, 2025, false, 500, 3⟩

/-- Sample configuration with `--dry-run`. -/
def cfgDry : Config :=
  ⟨("postgres://db"), ("full"), 2024, 2010, 2025, true, 500, 3⟩

/-- A sample parsed roster record. -/
def samplePlayer : RosterPlayer :=
  ⟨2024, ("STL"), ("QB"), some 12, some ("ACT"), ("John Doe"),
    some ("6-2"), some 210, some ("State"), ("00-0001")⟩

/-- A year input whose downloads all succeed with empty documents. -/
def emptyYearInput : YearInput :=
  ⟨.ok [], .ok [], .ok ("")⟩

/-- C2 counterexample: at season 2024 the categories `import_year`
actually processes are rosters, player stats and NGS passing — the
schedule category is never fetched or imported (the source skips it
with a log line), so the claimed four-category sequence is not run. -/
theorem c2_schedule_skipped_counterexample :
    (import_year cfgFull [] emptyYearInput 2024 emptyStore).toOption.map
        Prod.snd
      = some [Category.rosters, Category.playerStats, Category.ngsPassing]
    ∧ (import_year cfgFull [] emptyYearInput 2024 emptyStore).toOption.map
        Prod.snd
      ≠ some [Category.rosters, Category.schedule, Category.playerStats,
          Category.ngsPassing] := by
  refine ⟨by decide, by decide⟩

/-- C2 amended: within `import_year` the categories are processed in the
fixed order rosters, player stats, next-gen-stats (the last only when
the season is at least 2016); the schedule category is skipped inside
`import_year` (deferred to an external importer) and never appears. -/
theorem c2_import_year_category_order :
    ∀ (cfg : Config) (teams : List (String × Nat)) (inp : YearInput)
      (year : Int) (s : Store),
      (import_year cfg teams inp year s).toOption.map Prod.snd
        = some ([Category.rosters] ++ [Category.playerStats]
            ++ (if 2016 ≤ year then [Category.ngsPassing] else [])) := by
  intro cfg teams inp year s
  rfl

/-- C9: `import_year` catches every per-category failure internally and
returns `Ok` for every year, so the error branch of the season match in
`run_full_import` is unreachable: the collected list of failed seasons
is empty for every configuration, oracle and starting store. -/
theorem c9_import_year_infallible :
    (∀ (cfg : Config) (teams : List (String × Nat)) (inp : YearInput)
      (year : Int) (s : Store),
      ∃ v, import_year cfg teams inp year s = Except.ok v)
    ∧ (∀ (cfg : Config) (teams : List (String × Nat))
      (inp : Int → YearInput) (s : Store),
      (run_full_import cfg teams inp s).2 = []) := by
  constructor
  · intro cfg teams inp year s
    exact ⟨_, rfl⟩
  · intro cfg teams inp s
    unfold run_full_import
    have key : ∀ (ys : List Int) (st : Store × List Int),
        (ys.foldl (fun acc y =>
          match import_year cfg teams (inp y) y acc.1 with
          | .ok r => (r.1, acc.2)
          | .error _ => (acc.1, acc.2 ++ [y])) st).2 = st.2 := by
      intro ys
      induction ys with
      | nil => intro st; rfl
      | cons y ys ih =>
        intro st
        simp only [List.foldl_cons]
        rw [ih]
        obtain ⟨v, hv⟩ : ∃ v, import_year cfg teams (inp y) y st.1
            = Except.ok v := ⟨_, rfl⟩
        rw [hv]
    exact key (yearRange cfg.start_year cfg.end_year) (s, [])

/-- A fold that ignores its elements is the identity. -/
theorem foldl_const_id {T : Type} (l : List T) (s : Store) :
    l.foldl (fun s _ => s) s = s := by
  induction l generalizing s with
  | nil => rfl
  | cons t l ih => simp only [List.foldl_cons]; exact ih s

/-- Unbatching: when each flush is the in-order fold of its batch, the
whole batching loop is the fold of all records, and the `imported`
counter ends at the total number of records seen. -/
theorem runBatches_eq {T : Type} (flush : Store → List T → Store)
    (step : Store → T → Store) (bs : Nat)
    (hf : ∀ s b, flush s b = b.foldl step s) :
    ∀ (rest : List T) (s : Store) (batch : List T) (count : Nat),
      runBatches flush bs rest s batch count
        = ((batch ++ rest).foldl step s,
            count + batch.length + rest.length) := by
  intro rest
  induction rest with
  | nil =>
    intro s batch count
    unfold runBatches
    cases hb : batch.isEmpty with
    | true =>
      have : batch = [] := List.isEmpty_iff.mp hb
      subst this
      simp
    | false =>
      rw [if_neg (by simp [hb])]
      simp [hf]
  | cons r rest ih =>
    intro s batch count
    unfold runBatches
    by_cases hlen : bs ≤ (batch ++ [r]).length
    · rw [if_pos hlen, ih (flush s (batch ++ [r])) [] (count + (batch ++ [r]).length)]
      rw [hf]
      simp [List.foldl_append]
      omega
    · rw [if_neg hlen, ih s (batch ++ [r]) count]
      simp [List.foldl_append]
      omega

/-- C3 counterexample: with `dry_run` set, a batch write of one record
produces NO normalization (or any per-record) event — the function
returns before validation/normalization could run, contradicting
"validation and normalization still execute for every record" — and the
surrounding import reports the full parsed record count (1), not zero
writes. -/
theorem c3_dry_run_counterexample :
    (upsertPlayersBatchTraced cfgDry [] emptyStore [samplePlayer]).2 = []
    ∧ (import_rosters cfgDry [] 2024 [samplePlayer] emptyStore).2 = 1 := by
  refine ⟨by decide, by decide⟩

/-- C3 amended: when `dry_run` is set, a batch write returns immediately
— no storage mutation, but also no per-record validation or
normalization work — and the roster import leaves the entire store
untouched (in particular no progress row is written for any
`(season, category)`), while reporting the parsed record count rather
than zero. -/
theorem c3_dry_run_amended :
    ∀ (cfg : Config) (teams : List (String × Nat)) (year : Int)
      (records : List RosterPlayer) (s : Store)
      (batch : List RosterPlayer),
      cfg.dry_run = true →
      upsertPlayersBatchTraced cfg teams s batch = (s, [])
      ∧ import_rosters cfg teams year records s = (s, records.length) := by
  intro cfg teams year records s batch h
  constructor
  · simp [upsertPlayersBatchTraced, h]
  · unfold import_rosters
    rw [runBatches_eq (upsert_players_batch cfg teams) (fun s _ => s)
      cfg.batch_size
      (fun s b => by simp [upsert_players_batch, h, foldl_const_id])
      records s [] 0]
    simp [h, foldl_const_id]

/-- Witness for C3 (amended): the dry-run configuration on one concrete
record leaves the store untouched, produces no events, and reports
count 1. -/
theorem c3_dry_run_amended_witness :
    upsertPlayersBatchTraced cfgDry [] emptyStore [samplePlayer]
      = (emptyStore, [])
    ∧ import_rosters cfgDry [] 2024 [samplePlayer] emptyStore
      = (emptyStore, 1) := by
  have := c3_dry_run_amended cfgDry [] 2024 [samplePlayer] emptyStore
    [samplePlayer] rfl
  simpa using this

/-! ## C1 — idempotence machinery -/

/-- The players-table fold of one import run. -/
def applyPlayers (teams : List (String × Nat)) :
    List PlayerRow × Nat → List RosterPlayer → List PlayerRow × Nat :=
  applyAll playerKey PlayerRow.nfl_id (mkPlayerRow teams) (owPlayerRow teams)

/-- The games-table fold of one import run. -/
def applyGames (teams : List (String × Nat)) :
    List GameRow × Nat → List Game → List GameRow × Nat :=
  applyAll (gameKey teams) GameRow.nfl_game_id (mkGameRow teams)
    (fun r g => owGameRow r g)

/-- The stats-table fold of one import run, keyed through a fixed
players table. -/
def applyStats (players : List PlayerRow) :
    List StatRow × Nat → List PlayerStat → List StatRow × Nat :=
  applyAll (statKey players) statRowKey mkStatRow (fun r s => owStatRow r s)

/-- The progress-table fold. -/
def applyProgress :
    List ProgressRow × Nat → List (Int × String × String × Int) →
      List ProgressRow × Nat :=
  applyAll progressKey progressRowKey mkProgressRow owProgressRow

theorem owPlayerRow_key (teams : List (String × Nat)) :
    ∀ (r : PlayerRow) (p : RosterPlayer),
      (owPlayerRow teams r p).nfl_id = r.nfl_id := by
  intro r p
  rfl

theorem owPlayerRow_absorb (teams : List (String × Nat)) :
    ∀ (r : PlayerRow) (p p' : RosterPlayer),
      owPlayerRow teams (owPlayerRow teams r p) p'
        = owPlayerRow teams r p' := by
  intro r p p'
  rfl

theorem mkPlayerRow_key (teams : List (String × Nat)) :
    ∀ (i : Nat) (k : String) (p : RosterPlayer),
      playerKey p = some k → (mkPlayerRow teams i k p).nfl_id = k := by
  intro i k p h
  injection h with h'

theorem owPlayerRow_mk (teams : List (String × Nat)) :
    ∀ (i : Nat) (k : String) (p : RosterPlayer),
      playerKey p = some k →
      owPlayerRow teams (mkPlayerRow teams i k p) p = mkPlayerRow teams i k p := by
  intro i k p _
  rfl

theorem owGameRow_key :
    ∀ (r : GameRow) (g : Game),
      (owGameRow r g).nfl_game_id = r.nfl_game_id := by
  intro r g
  rfl

theorem owGameRow_absorb :
    ∀ (r : GameRow) (g g' : Game),
      owGameRow (owGameRow r g) g' = owGameRow r g' := by
  intro r g g'
  rfl

theorem mkGameRow_key (teams : List (String × Nat)) :
    ∀ (i : Nat) (k : String) (g : Game),
      gameKey teams g = some k → (mkGameRow teams i k g).nfl_game_id = k := by
  intro i k g h
  unfold gameKey at h
  by_cases hc : (get_team_id_by_abbr teams
        (normalize_team_abbr g.home_team)).isSome = true
      ∧ (get_team_id_by_abbr teams
        (normalize_team_abbr g.away_team)).isSome = true
  · rw [if_pos hc] at h
    injection h with h'
  · rw [if_neg hc] at h
    cases h

theorem owGameRow_mk (teams : List (String × Nat)) :
    ∀ (i : Nat) (k : String) (g : Game),
      gameKey teams g = some k →
      owGameRow (mkGameRow teams i k g) g = mkGameRow teams i k g := by
  intro i k g _
  rfl

theorem owStatRow_key :
    ∀ (r : StatRow) (s : PlayerStat),
      statRowKey (owStatRow r s) = statRowKey r := by
  intro r s
  rfl

theorem owStatRow_absorb :
    ∀ (r : StatRow) (s s' : PlayerStat),
      owStatRow (owStatRow r s) s' = owStatRow r s' := by
  intro r s s'
  rfl

theorem mkStatRow_key (players : List PlayerRow) :
    ∀ (i : Nat) (k : Nat × Int × Int) (s : PlayerStat),
      statKey players s = some k → statRowKey (mkStatRow i k s) = k := by
  intro i k s h
  unfold statKey at h
  cases hf : get_player_id_by_nfl_id players s.player_id with
  | none =>
    rw [hf] at h
    cases h
  | some pid =>
    rw [hf] at h
    injection h with h'
    subst h'
    rfl

theorem owStatRow_mk (players : List PlayerRow) :
    ∀ (i : Nat) (k : Nat × Int × Int) (s : PlayerStat),
      statKey players s = some k →
      owStatRow (mkStatRow i k s) s = mkStatRow i k s := by
  intro i k s _
  rfl

theorem owProgressRow_key :
    ∀ (r : ProgressRow) (t : Int × String × String × Int),
      progressRowKey (owProgressRow r t) = progressRowKey r := by
  intro r t
  rfl

theorem owProgressRow_absorb :
    ∀ (r : ProgressRow) (t t' : Int × String × String × Int),
      owProgressRow (owProgressRow r t) t' = owProgressRow r t' := by
  intro r t t'
  rfl

theorem mkProgressRow_key :
    ∀ (i : Nat) (k : Int × String) (t : Int × String × String × Int),
      progressKey t = some k → progressRowKey (mkProgressRow i k t) = k := by
  intro i k t h
  injection h with h'

theorem owProgressRow_mk :
    ∀ (i : Nat) (k : Int × String) (t : Int × String × String × Int),
      progressKey t = some k →
      owProgressRow (mkProgressRow i k t) t = mkProgressRow i k t := by
  intro i k t _
  rfl

/-- The roster fold only touches the `players` table and the surrogate
counter. -/
theorem foldPlayers_eq (teams : List (String × Nat))
    (records : List RosterPlayer) :
    ∀ s : Store,
      records.foldl (upsertPlayerS teams) s
        = { s with
            players := (applyPlayers teams (s.players, s.nextId) records).1
            nextId := (applyPlayers teams (s.players, s.nextId) records).2 } := by
  induction records with
  | nil => intro s; rfl
  | cons p rest ih =>
    intro s
    rw [List.foldl_cons, ih (upsertPlayerS teams s p)]
    rfl

/-- The schedule fold only touches the `games` table and the surrogate
counter. -/
theorem foldGames_eq (teams : List (String × Nat)) (records : List Game) :
    ∀ s : Store,
      records.foldl (upsertGameS teams) s
        = { s with
            games := (applyGames teams (s.games, s.nextId) records).1
            nextId := (applyGames teams (s.games, s.nextId) records).2 } := by
  induction records with
  | nil => intro s; rfl
  | cons g rest ih =>
    intro s
    rw [List.foldl_cons, ih (upsertGameS teams s g)]
    rfl

/-- The stats fold only touches the `game_stats` table and the surrogate
counter; in particular the `players` table it keys through is constant
over the fold. -/
theorem foldStats_eq (records : List PlayerStat) :
    ∀ s : Store,
      records.foldl upsertStatS s
        = { s with
            stats := (applyStats s.players (s.stats, s.nextId) records).1
            nextId := (applyStats s.players (s.stats, s.nextId) records).2 } := by
  induction records with
  | nil => intro s; rfl
  | cons st rest ih =>
    intro s
    rw [List.foldl_cons, ih (upsertStatS s st)]
    rfl

/-- `import_rosters` without `dry_run`, in closed form. -/
theorem import_rosters_spec (cfg : Config) (teams : List (String × Nat))
    (year : Int) (records : List RosterPlayer) (s : Store)
    (h : cfg.dry_run = false) :
    import_rosters cfg teams year records s
      = ({ s with
            players := (applyPlayers teams (s.players, s.nextId) records).1
            nextId := (applyPlayers teams (s.players, s.nextId) records).2
            progress := mark_progress s.progress (year, ("rosters"), ("completed"), (records.length : Int)) },
          records.length) := by
  unfold import_rosters
  rw [runBatches_eq (upsert_players_batch cfg teams) (upsertPlayerS teams)
    cfg.batch_size (fun s b => by simp [upsert_players_batch, h])
    records s [] 0]
  rw [foldPlayers_eq]
  simp [h]

/-- `import_schedule` without `dry_run`, in closed form. -/
theorem import_schedule_spec (cfg : Config) (teams : List (String × Nat))
    (year : Int) (records : List Game) (s : Store)
    (h : cfg.dry_run = false) :
    import_schedule cfg teams year records s
      = ({ s with
            games := (applyGames teams (s.games, s.nextId)
              (records.filter (fun g => g.game_type = ("REG")))).1
            nextId := (applyGames teams (s.games, s.nextId)
              (records.filter (fun g => g.game_type = ("REG")))).2
            progress := mark_progress s.progress (year, ("schedule"), ("completed"), ((records.filter (fun g => g.game_type = ("REG"))).length : Int)) },
          (records.filter (fun g => g.game_type = ("REG"))).length) := by
  unfold import_schedule
  rw [runBatches_eq (upsert_games_batch cfg teams) (upsertGameS teams)
    cfg.batch_size (fun s b => by simp [upsert_games_batch, h])
    (records.filter (fun g => g.game_type = ("REG"))) s [] 0]
  rw [foldGames_eq]
  simp [h]

/-- `import_player_stats` without `dry_run`, in closed form. -/
theorem import_player_stats_spec (cfg : Config) (year : Int)
    (records : List PlayerStat) (s : Store)
    (h : cfg.dry_run = false) :
    import_player_stats cfg year records s
      = ({ s with
            stats := (applyStats s.players (s.stats, s.nextId)
              (records.filter (fun st => st.season_type = ("REG")))).1
            nextId := (applyStats s.players (s.stats, s.nextId)
              (records.filter (fun st => st.season_type = ("REG")))).2
            progress := mark_progress s.progress (year, ("player_stats"), ("completed"), ((records.filter (fun st => st.season_type = ("REG"))).length : Int)) },
          (records.filter (fun st => st.season_type = ("REG"))).length) := by
  unfold import_player_stats
  rw [runBatches_eq (upsert_stats_batch cfg) upsertStatS
    cfg.batch_size (fun s b => by simp [upsert_stats_batch, h])
    (records.filter (fun st => st.season_type = ("REG"))) s [] 0]
  rw [foldStats_eq]
  simp [h]

theorem upsertProgress_fst (rows : List ProgressRow) (n : Nat)
    (t : Int × String × String × Int) :
    (upsertRow progressKey progressRowKey mkProgressRow owProgressRow
      (rows, n) t).1 = mark_progress rows t := by
  unfold mark_progress upsertRow
  dsimp only [progressKey]
  cases hc : hasK progressRowKey rows (t.1, t.2.1) with
  | true => simp [hc]
  | false => simp [hc, mkProgressRow]

theorem progress_fold (L : List (Int × String × String × Int)) :
    ∀ (rows : List ProgressRow) (n : Nat),
      (applyProgress (rows, n) L).1 = L.foldl mark_progress rows := by
  induction L with
  | nil => intro rows n; rfl
  | cons t L ih =>
    intro rows n
    calc (applyProgress (rows, n) (t :: L)).1
        = (applyProgress ((upsertRow progressKey progressRowKey
            mkProgressRow owProgressRow (rows, n) t).1,
            (upsertRow progressKey progressRowKey
            mkProgressRow owProgressRow (rows, n) t).2) L).1 := rfl
      _ = L.foldl mark_progress ((upsertRow progressKey progressRowKey
            mkProgressRow owProgressRow (rows, n) t).1) := ih _ _
      _ = L.foldl mark_progress (mark_progress rows t) := by
            rw [upsertProgress_fst]
      _ = ((t :: L).foldl mark_progress rows) := rfl

/-- Replaying the roster records over the players table they produced is
a no-op (any surrogate counter). -/
theorem applyPlayers_replay (teams : List (String × Nat))
    (st : List PlayerRow × Nat) (R : List RosterPlayer) (m : Nat) :
    applyPlayers teams ((applyPlayers teams st R).1, m) R
      = ((applyPlayers teams st R).1, m) :=
  applyAll_replay playerKey PlayerRow.nfl_id (mkPlayerRow teams)
    (owPlayerRow teams) (owPlayerRow_key teams) (owPlayerRow_absorb teams)
    (mkPlayerRow_key teams) (owPlayerRow_mk teams) st R m

/-- Replaying the game records over the games table they produced is a
no-op. -/
theorem applyGames_replay (teams : List (String × Nat))
    (st : List GameRow × Nat) (G : List Game) (m : Nat) :
    applyGames teams ((applyGames teams st G).1, m) G
      = ((applyGames teams st G).1, m) :=
  applyAll_replay (gameKey teams) GameRow.nfl_game_id (mkGameRow teams)
    (fun r g => owGameRow r g) owGameRow_key owGameRow_absorb
    (mkGameRow_key teams) (owGameRow_mk teams) st G m

/-- Replaying the stat records (keyed through the same players table)
over the stats table they produced is a no-op. -/
theorem applyStats_replay (players : List PlayerRow)
    (st : List StatRow × Nat) (T : List PlayerStat) (m : Nat) :
    applyStats players ((applyStats players st T).1, m) T
      = ((applyStats players st T).1, m) :=
  applyAll_replay (statKey players) statRowKey mkStatRow
    (fun r s => owStatRow r s) owStatRow_key owStatRow_absorb
    (mkStatRow_key players) (owStatRow_mk players) st T m

/-- Replaying the three progress completions is a no-op. -/
theorem progress_replay (L : List (Int × String × String × Int))
    (rows : List ProgressRow) :
    L.foldl mark_progress (L.foldl mark_progress rows) =
      L.foldl mark_progress rows := by
  have h : (applyProgress ((applyProgress (rows, 0) L).1, 0) L).1
      = ((applyProgress (rows, 0) L).1, 0).1 :=
    congrArg Prod.fst
      (applyAll_replay progressKey progressRowKey mkProgressRow owProgressRow
        owProgressRow_key owProgressRow_absorb mkProgressRow_key
        owProgressRow_mk (rows, 0) L 0)
  rw [progress_fold, progress_fold] at h
  exact h

/-- One season's import (no `dry_run`) in closed form: each table is the
fold of its records, the stats fold keyed through the players table the
roster phase just produced, and three progress completions recorded. -/
theorem importSeason_spec (cfg : Config) (teams : List (String × Nat))
    (year : Int) (R : List RosterPlayer) (G : List Game)
    (T : List PlayerStat) (s : Store) (h : cfg.dry_run = false) :
    importSeason cfg teams year R G T s
      = { s with
          players := (applyPlayers teams (s.players, s.nextId) R).1
          games := (applyGames teams (s.games,
            (applyPlayers teams (s.players, s.nextId) R).2)
            (G.filter (fun g => g.game_type = ("REG")))).1
          stats := (applyStats (applyPlayers teams (s.players, s.nextId) R).1
            (s.stats, (applyGames teams (s.games,
              (applyPlayers teams (s.players, s.nextId) R).2)
              (G.filter (fun g => g.game_type = ("REG")))).2)
            (T.filter (fun st => st.season_type = ("REG")))).1
          progress := mark_progress (mark_progress (mark_progress s.progress
            (year, ("rosters"), ("completed"), (R.length : Int)))
            (year, ("schedule"), ("completed"), ((G.filter (fun g => g.game_type = ("REG"))).length : Int)))
            (year, ("player_stats"), ("completed"), ((T.filter (fun st => st.season_type = ("REG"))).length : Int))
          nextId := (applyStats (applyPlayers teams (s.players, s.nextId) R).1
            (s.stats, (applyGames teams (s.games,
              (applyPlayers teams (s.players, s.nextId) R).2)
              (G.filter (fun g => g.game_type = ("REG")))).2)
            (T.filter (fun st => st.season_type = ("REG")))).2 } := by
  unfold importSeason
  rw [import_rosters_spec cfg teams year R s h]
  rw [import_schedule_spec cfg teams year G _ h]
  rw [import_player_stats_spec cfg year T _ h]

/-- C1: the full import for a fixed season is idempotent.  Because every
record write is an `ON CONFLICT` upsert keyed by the natural key
(`nfl_id` for players, `nfl_game_id` for games,
`(player_id, season, week)` for stats, `(season, data_type)` for
progress) that overwrites the mutable columns, running the season import
twice against a fresh store produces exactly the same store — same rows,
same field values, same surrogate-id counter, no duplicates — as running
it once.  (Timestamp columns, which the upserts refresh by design, are
outside the model; see the header.) -/
theorem c1_import_season_idempotent (cfg : Config)
    (teams : List (String × Nat)) (year : Int) (R : List RosterPlayer)
    (G : List Game) (T : List PlayerStat) (h : cfg.dry_run = false) :
    importSeason cfg teams year R G T
        (importSeason cfg teams year R G T emptyStore)
      = importSeason cfg teams year R G T emptyStore := by
  rw [importSeason_spec cfg teams year R G T emptyStore h]
  rw [importSeason_spec cfg teams year R G T _ h]
  dsimp only
  generalize hP : applyPlayers teams (emptyStore.players, emptyStore.nextId) R = P
  generalize hG : applyGames teams (emptyStore.games, P.2) (G.filter (fun g => g.game_type = ("REG"))) = GG
  generalize hS : applyStats P.1 (emptyStore.stats, GG.2) (T.filter (fun st => st.season_type = ("REG"))) = SS
  have eP : applyPlayers teams (P.1, SS.2) R = (P.1, SS.2) := by
    rw [← hP]
    exact applyPlayers_replay teams (emptyStore.players, emptyStore.nextId)
      R SS.2
  rw [eP]
  dsimp only
  have eG : applyGames teams (GG.1, SS.2)
      (G.filter (fun g => g.game_type = ("REG"))) = (GG.1, SS.2) := by
    rw [← hG]
    exact applyGames_replay teams (emptyStore.games, P.2) _ SS.2
  rw [eG]
  dsimp only
  have eS : applyStats P.1 (SS.1, SS.2)
      (T.filter (fun st => st.season_type = ("REG"))) = (SS.1, SS.2) := by
    rw [← hS]
    exact applyStats_replay P.1 (emptyStore.stats, GG.2) _ _
  rw [eS]
  dsimp only
  generalize ht1 : ((year, ("rosters"), ("completed"), (R.length : Int)) : Int × String × String × Int) = t1
  generalize ht2 : ((year, ("schedule"), ("completed"), ((G.filter (fun g => g.game_type = ("REG"))).length : Int)) : Int × String × String × Int) = t2
  generalize ht3 : ((year, ("player_stats"), ("completed"), ((T.filter (fun st => st.season_type = ("REG"))).length : Int)) : Int × String × String × Int) = t3
  have eQ : mark_progress (mark_progress (mark_progress (mark_progress (mark_progress (mark_progress emptyStore.progress t1) t2) t3) t1) t2) t3
      = mark_progress (mark_progress (mark_progress emptyStore.progress t1) t2) t3 :=
    progress_replay [t1, t2, t3] emptyStore.progress
  rw [eQ]

/-- A sample parsed schedule record (regular season). -/
def sampleGame : Game :=
  ⟨("2024_01_KC_BAL"), 2024, ("REG"), 1, ("2024-09-05"), ("KC"), some 27,
    ("BAL"), some 20⟩

/-- A sample parsed stat record (regular season). -/
def sampleStat : PlayerStat :=
  ⟨("00-0001"), some ("John Doe"), 2024, 1, ("REG"), some 291, some 12,
    none, some 2, none, none, none, none, some 39, some 28, some 1⟩

/-- A sample static teams table. -/
def sampleTeams : List (String × Nat) :=
  [(("LA"), 1), (("KC"), 2), (("BAL"), 3)]

/-- Witness for C1: the idempotence theorem applied to one concrete
player, game and stat record over a concrete teams table. -/
theorem c1_import_season_idempotent_witness :
    importSeason cfgFull sampleTeams 2024 [samplePlayer] [sampleGame]
        [sampleStat]
        (importSeason cfgFull sampleTeams 2024 [samplePlayer] [sampleGame]
          [sampleStat] emptyStore)
      = importSeason cfgFull sampleTeams 2024 [samplePlayer] [sampleGame]
          [sampleStat] emptyStore :=
  c1_import_season_idempotent cfgFull sampleTeams 2024 [samplePlayer]
    [sampleGame] [sampleStat] rfl
